import Mathlib

/-!
Verification of the turn-scheduling and conversation-state engine of the
nexus multi-agent chat relay (src/server.js, src/command.js), as a shallow
embedding in Lean 4.
-/

namespace Nexus

/-- The agentTypes table of server.js (sender name to CSS class). -/
def agentTypes : String → Option String := fun s =>
  if s = "System" then some "system"
  else if s = "Human" then some "human"
  else if s = "Gemini" then some "gemini"
  else if s = "Llama" then some "llama"
  else if s = "Qwen" then some "qwen"
  else none

/-- A chat message, as built by the ChatMessage constructor of server.js:
senderType is derived from the sender via the agentTypes table, with
fallback "system". -/
structure ChatMessage where
  sender : String
  content : String
  timestamp : Nat
  senderType : String
deriving DecidableEq, Repr

/-- JavaScript String.prototype.trim, modelled on the character list so that
it evaluates by kernel reduction. -/
def jsTrim (s : String) : String :=
  ⟨((s.data.dropWhile Char.isWhitespace).reverse.dropWhile
      Char.isWhitespace).reverse⟩

/-- The ChatMessage constructor: new ChatMessage(sender, content, timestamp). -/
def mkChatMessage (sender content : String) (timestamp : Nat) : ChatMessage :=
  { sender := sender, content := content, timestamp := timestamp,
    senderType := (agentTypes sender).getD "system" }

/-- The record shape produced by ChatMessage.toJSON (the on-wire and on-disk
snapshot format: sender, content, timestamp, senderType). -/
structure MsgRecord where
  sender : String
  content : String
  timestamp : Nat
  senderType : String
deriving DecidableEq, Repr

/-- ChatMessage.toJSON from server.js. -/
def ChatMessage.toJSON (m : ChatMessage) : MsgRecord :=
  { sender := m.sender, content := m.content, timestamp := m.timestamp,
    senderType := m.senderType }

/-- maxHistory field of the MultiAgentChatServer constructor. -/
def maxHistory : Nat := 150

/-- The store mutation performed by addMessage in server.js:
push the message, then if length exceeds the cap, shift (drop the head). -/
def pushBounded (cap : Nat) (msgs : List ChatMessage) (m : ChatMessage) :
    List ChatMessage :=
  if cap < (msgs ++ [m]).length then (msgs ++ [m]).tail else msgs ++ [m]

/-- One bounded push on an in-bounds store drops exactly the overflow
(0 or 1 oldest elements) from the front. -/
lemma pushBounded_of_le (cap : Nat) (hcap : 0 < cap) (msgs : List ChatMessage)
    (m : ChatMessage) (h : msgs.length ≤ cap) :
    pushBounded cap msgs m = (msgs ++ [m]).drop (msgs.length + 1 - cap) := by
  unfold pushBounded
  by_cases hc : cap < (msgs ++ [m]).length
  · rw [if_pos hc]
    have heq : msgs.length = cap := by
      simp only [List.length_append, List.length_singleton] at hc; omega
    have h2 : msgs.length + 1 - cap = 1 := by omega
    rw [h2, ← List.drop_one]
  · rw [if_neg hc]
    have h2 : msgs.length + 1 - cap = 0 := by
      simp only [List.length_append, List.length_singleton] at hc; omega
    rw [h2, List.drop_zero]

lemma pushBounded_length (cap : Nat) (hcap : 0 < cap) (msgs : List ChatMessage)
    (m : ChatMessage) (h : msgs.length ≤ cap) :
    (pushBounded cap msgs m).length ≤ cap := by
  rw [pushBounded_of_le cap hcap msgs m h]
  simp only [List.length_drop, List.length_append, List.length_singleton]
  omega

lemma foldl_pushBounded_drop (cap : Nat) (hcap : 0 < cap) :
    ∀ (ms : List ChatMessage) (s : List ChatMessage), s.length ≤ cap →
      List.foldl (pushBounded cap) s ms =
        (s ++ ms).drop (s.length + ms.length - cap) := by
  intro ms
  induction ms with
  | nil =>
    intro s hs
    simp only [List.foldl_nil, List.append_nil, List.length_nil, Nat.add_zero]
    have h0 : s.length - cap = 0 := by omega
    rw [h0, List.drop_zero]
  | cons m rest ih =>
    intro s hs
    have hlen : (pushBounded cap s m).length ≤ cap :=
      pushBounded_length cap hcap s m hs
    have hstep := pushBounded_of_le cap hcap s m hs
    rw [List.foldl_cons, ih (pushBounded cap s m) hlen, hstep]
    have hd1 : s.length + 1 - cap ≤ (s ++ [m]).length := by
      simp only [List.length_append, List.length_singleton]; omega
    rw [← List.drop_append_of_le_length hd1, List.drop_drop]
    have hdl : ((s ++ [m]).drop (s.length + 1 - cap)).length
        = s.length + 1 - (s.length + 1 - cap) := by
      simp
    rw [hdl]
    have hI : s.length + 1 - cap
        + (s.length + 1 - (s.length + 1 - cap) + rest.length - cap)
        = s.length + (m :: rest).length - cap := by
      simp only [List.length_cons]
      omega
    rw [hI, List.append_assoc]
    simp

/-! ## Scheduler state (fields of MultiAgentChatServer relevant to the core) -/

/-- The MultiAgentChatServer state: agents is the ordered key list of
this.agents, messages the global history, conversationActive / isGenerating
the two flags, timer the armed autoConversationTimer (delay it was armed
with, none when disarmed), typingAgents the typing set. -/
structure ServerState where
  agents : List String
  messages : List ChatMessage
  conversationActive : Bool
  isGenerating : Bool
  timer : Option Int
  typingAgents : List String
deriving DecidableEq, Repr

/-- autoConverseInterval lower bound (ms). -/
def autoMinDelay : Int := 8000

/-- autoConverseInterval upper bound (ms). -/
def autoMaxDelay : Int := 20000

/-- responseTimeout field (ms). -/
def responseTimeoutMs : Int := 25000

/-- The wait-time computation of scheduleAutoConversation: a forced delay is
used as given; otherwise Math.floor(Math.random() * (max - min) + min) with
Math.random() modelled as a rational r with 0 ≤ r < 1. -/
def waitTime (forced : Option Int) (r : ℚ) : Int :=
  match forced with
  | some d => d
  | none => ⌊r * ((autoMaxDelay : ℚ) - (autoMinDelay : ℚ)) + (autoMinDelay : ℚ)⌋

/-- scheduleAutoConversation from server.js: clear the armed timer; if the
conversation is inactive or no agents are registered, return disarmed;
otherwise arm the timer with the computed wait time. -/
def scheduleAutoConversation (s : ServerState) (forced : Option Int) (r : ℚ) :
    ServerState :=
  if s.conversationActive && !s.agents.isEmpty then
    { s with timer := some (waitTime forced r) }
  else { s with timer := none }

/-- list[Math.floor(Math.random() * list.length)], with Math.random()
modelled as a rational r (0 ≤ r < 1 in the real runtime). -/
def pick {α : Type} (l : List α) (r : ℚ) : Option α :=
  l.get? (Int.toNat ⌊r * (l.length : ℚ)⌋)

/-- Sender of the most recent message (null when the history is empty). -/
def lastSender (s : ServerState) : Option String :=
  s.messages.getLast?.map ChatMessage.sender

/-- Set.add on typingAgents. -/
def typingAdd (l : List String) (a : String) : List String :=
  if a ∈ l then l else l ++ [a]

/-- Outcome with which the generation/timeout race settles. -/
inductive GenOutcome where
  | success (text : String)
  | failure (emsg : String)
  | timeout
deriving DecidableEq, Repr

/-- The rejection message of the timeout promise:
"Timeout after " + responseTimeout / 1000 + "s". -/
def timeoutErrText : String :=
  "Timeout after " ++ toString (responseTimeoutMs / 1000) ++ "s"

/-- The error message carried by a failed settlement: the thrown message, or
the timeout rejection's message. -/
def settleErrMessage : GenOutcome → Option String
  | .success _ => none
  | .failure m => some m
  | .timeout => some timeoutErrText

/-- The System diagnostic appended by the catch branch of triggerAIResponse:
"Agent NAME encountered an error: MSG..." with MSG truncated to 100 chars. -/
def sysDiag (a emsg : String) (now : Nat) : ChatMessage :=
  mkChatMessage "System" ("Agent " ++ a ++ " encountered an error: "
    ++ emsg.take 100 ++ "...") now

/-- The store mutation of addMessage applied to the server state. -/
def addMsg (s : ServerState) (m : ChatMessage) : ServerState :=
  { s with messages := pushBounded maxHistory s.messages m }

/-- How a call to triggerAIResponse returns before/at lock acquisition. -/
inductive StartResult where
  | dropped
  | invalidAgent
  | sameSpeakerSkip
  | started
deriving DecidableEq, Repr

/-- The synchronous entry phase of triggerAIResponse, up to acquiring the
isGenerating lock: drop when a generation is in flight (no state change, no
reschedule); reschedule with forced delay 1000 when the agent is not
registered; reschedule with forced delay 100 when more than one agent is
registered and the most recent sender is the requested agent; otherwise
acquire the lock and turn the typing indicator on. -/
def startedState (s : ServerState) (a : String) : ServerState :=
  { s with isGenerating := true, typingAgents := typingAdd s.typingAgents a }

def triggerStart (s : ServerState) (a : String) : ServerState × StartResult :=
  if s.isGenerating then (s, .dropped)
  else if a ∉ s.agents then (scheduleAutoConversation s (some 1000) 0, .invalidAgent)
  else if 1 < s.agents.length ∧ lastSender s = some a then
    (scheduleAutoConversation s (some 100) 0, .sameSpeakerSkip)
  else (startedState s a, .started)

/-- The try/catch body of triggerAIResponse acting on the settled outcome:
non-empty trimmed text is appended as the agent's message, empty text is a
soft failure appending nothing, a thrown error or the timeout appends a
System diagnostic. -/
def raceBranch (s : ServerState) (a : String) (o : GenOutcome) (now : Nat) :
    ServerState :=
  match o with
  | .success t => if jsTrim t = "" then s else addMsg s (mkChatMessage a (jsTrim t) now)
  | .failure m => addMsg s (sysDiag a m now)
  | .timeout => addMsg s (sysDiag a timeoutErrText now)

/-- The finally block of triggerAIResponse: typing off, lock released, and a
reschedule with the default random interval when the conversation is active. -/
def finallyStep (s1 : ServerState) (a : String) (r : ℚ) : ServerState :=
  if s1.conversationActive then
    scheduleAutoConversation
      { s1 with typingAgents := s1.typingAgents.erase a, isGenerating := false }
      none r
  else { s1 with typingAgents := s1.typingAgents.erase a, isGenerating := false }

/-- The remainder of triggerAIResponse after Promise.race settles.
settlements lists the settle order of the raced promises; only the head (the
first settled outcome) is acted on, which models Promise.race discarding the
eventual result of the loser. Then the finally step always runs. -/
def finishAttempt (s : ServerState) (a : String)
    (settlements : List GenOutcome) (r : ℚ) (now : Nat) : ServerState :=
  finallyStep (raceBranch s a (settlements.headD .timeout) now) a r

/-- The setTimeout callback armed by scheduleAutoConversation: when active,
not generating and agents exist, select the next speaker (all agents minus
the most recent sender; the full set when that filter empties) and return the
choice; when active but a generation is in flight, reschedule with forced
delay 2000; otherwise stop. -/
def autoTimerFire (s : ServerState) (r : ℚ) : ServerState × Option String :=
  let s0 := { s with timer := none }
  if s0.conversationActive && !s0.isGenerating && !s0.agents.isEmpty then
    let last := lastSender s0
    let avail := s0.agents.filter (fun n => decide (some n ≠ last))
    let avail2 := if avail.isEmpty then s0.agents else avail
    (s0, pick avail2 r)
  else if s0.conversationActive && s0.isGenerating then
    (scheduleAutoConversation s0 (some 2000) r, none)
  else (s0, none)

/-- Result of handleHumanInput: the state after the synchronous part of the
handler (including the entry phase of the triggered response), the agent it
chose to trigger, and whether that attempt actually started. -/
structure HumanInputResult where
  state : ServerState
  chosen : Option String
  started : Bool
deriving DecidableEq, Repr

/-- handleHumanInput from server.js: append the human message, force
conversationActive, cancel the armed timer, then either trigger a uniformly
random registered agent or, with no agents registered, fall back to
scheduleAutoConversation(). -/
def handleHumanInput (s : ServerState) (content : String) (now : Nat) (r : ℚ) :
    HumanInputResult :=
  let sA := addMsg s (mkChatMessage "Human" content now)
  let sB := { sA with conversationActive := true, timer := none }
  if sB.agents.isEmpty then
    { state := scheduleAutoConversation sB none r, chosen := none, started := false }
  else
    match pick sB.agents r with
    | some n =>
        let t := triggerStart sB n
        { state := t.1, chosen := some n, started := t.2 = .started }
    | none => { state := sB, chosen := none, started := false }

/-! ## addMessage with its validation guard and external effects -/

/-- A value handed to addMessage: either an actual ChatMessage instance or
anything else (the instanceof check fails). -/
inductive JSVal where
  | msg (m : ChatMessage)
  | notMsg
deriving DecidableEq, Repr

/-- External effects addMessage can emit: the newMessage broadcast, the
save-timer reset, and the InvalidMessage rejection signal (console.error on
the non-ChatMessage branch). -/
inductive Effect where
  | broadcast (rec : MsgRecord)
  | saveTimerReset
  | invalidMessage
deriving DecidableEq, Repr

/-- addMessage from server.js: a non-ChatMessage value is rejected up front
(store untouched, only the rejection signal emitted); a ChatMessage is pushed
with FIFO eviction, broadcast, and the save timer reset. -/
def addMessage (s : ServerState) (v : JSVal) : ServerState × List Effect :=
  match v with
  | .notMsg => (s, [.invalidMessage])
  | .msg m => (addMsg s m, [.broadcast m.toJSON, .saveTimerReset])

/-! ## The humanMessage socket channel guard -/

/-- A payload arriving on the humanMessage socket channel: a string or any
non-string value. -/
inductive SocketPayload where
  | str (s : String)
  | nonString
deriving DecidableEq, Repr

/-- The validation in handleConnection: typeof content === 'string' and
content.trim().length > 0 and content.length < 2000. -/
def validHumanPayload : SocketPayload → Bool
  | .str c => 0 < (jsTrim c).length && c.length < 2000
  | .nonString => false

/-- The humanMessage listener: a valid payload is trimmed and passed to
handleHumanInput; anything else is dropped with no state change. -/
def onHumanMessage (s : ServerState) (p : SocketPayload) (now : Nat) (r : ℚ) :
    ServerState :=
  match p with
  | .str c =>
      if 0 < (jsTrim c).length && c.length < 2000 then
        (handleHumanInput s (jsTrim c) now r).state
      else s
  | .nonString => s

/-! ## Snapshot persistence round-trip -/

/-- saveConversation from server.js serializes this.messages in order via
toJSON; this is the JSON array written to disk. -/
def saveConversationRecords (msgs : List ChatMessage) : List MsgRecord :=
  msgs.map ChatMessage.toJSON

/-- Modelled from the spec: the repository ships no loader for the snapshot
file; reconstruction of a message from a snapshot record goes through the
ChatMessage constructor on the record's sender, content and timestamp
(§6 persistence boundary, §8 round-trip property). -/
def loadMessageRecord (rec : MsgRecord) : ChatMessage :=
  mkChatMessage rec.sender rec.content rec.timestamp

/-- Modelled from the spec: reconstructing a store from the snapshot file is
reading the array in order through the ChatMessage constructor. -/
def loadConversationRecords (recs : List MsgRecord) : List ChatMessage :=
  recs.map loadMessageRecord

/-- The observable identity of a message for the round-trip property. -/
def msgTriple (m : ChatMessage) : String × String × Nat :=
  (m.sender, m.content, m.timestamp)

/-! ## Roundtable mode (command.js, with the driver modelled from the spec) -/

/-- Result value of a CommandHandler command. -/
inductive CommandResult where
  | failure (msg : String)
  | handled
deriving DecidableEq, Repr

/-- Modelled from the spec: server.js defines no addSystemMessage even though
command.js calls it; per §4.4 it appends a System-sender message to the
timeline. -/
def addSystemMessage (s : ServerState) (txt : String) (now : Nat) : ServerState :=
  addMsg s (mkChatMessage "System" txt now)

/-- handleRoundtableCommand from command.js, up to arming the driver: reject
an empty topic; otherwise announce the mode (two System messages), append the
topic as a Human message, and snapshot the registered agent list into the
roundtable overlay state (currentIndex 0). Returns the state, the command
result, and the agent snapshot the overlay captured. -/
def handleRoundtableCommand (s : ServerState) (args : String) (now : Nat) :
    ServerState × CommandResult × List String :=
  let topic := jsTrim args
  if topic = "" then
    (s, .failure "Usage: /roundtable [topic or question]", [])
  else
    let s1 := addSystemMessage s ("🔵 ROUNDTABLE MODE: \"" ++ topic ++ "\"") now
    let s2 := addSystemMessage s1 "Each agent will respond in sequence..." now
    let s3 := addMsg s2 (mkChatMessage "Human" ("ROUNDTABLE TOPIC: " ++ topic) now)
    (s3, .handled, s.agents)

/-- Modelled from the spec: the completion announcement text emitted when the
roundtable overlay finishes (server.js defines no triggerRoundtableResponse;
§4.4 only requires a System completion message). -/
def roundtableCompleteText : String := "Roundtable discussion complete."

/-- The message one forced roundtable turn appends, matching the outcome
branches of triggerAIResponse: the agent's trimmed text on success, nothing
on an empty response, a System diagnostic on error or timeout. -/
def roundtableTurnMsg (a : String) (o : GenOutcome) (now : Nat) :
    Option ChatMessage :=
  match o with
  | .success t => if jsTrim t = "" then none else some (mkChatMessage a (jsTrim t) now)
  | .failure m => some (sysDiag a m now)
  | .timeout => some (sysDiag a timeoutErrText now)

/-- Modelled from the spec: triggerRoundtableResponse (absent from src) per
§4.4 drives each agent of the overlay snapshot, in order, through exactly one
forced turn, then announces completion. Returns the messages the driver
appends in order and the sequence of turn attempts it makes. An agent whose
outcome is missing from the settle list behaves as a timeout. -/
def driveRoundtable (agents : List String) (outcomes : List GenOutcome)
    (now : Nat) : List ChatMessage × List String :=
  match agents with
  | [] => ([mkChatMessage "System" roundtableCompleteText now], [])
  | a :: rest =>
      let o := outcomes.headD .timeout
      let tail := driveRoundtable rest (outcomes.drop 1) now
      ((roundtableTurnMsg a o now).toList ++ tail.1, a :: tail.2)

/-- A full roundtable run: the command, then the spec-modelled driver over
the snapshot, with every driver message appended through the bounded store. -/
def runRoundtable (s : ServerState) (args : String)
    (outcomes : List GenOutcome) (now : Nat) : ServerState × List String :=
  match handleRoundtableCommand s args now with
  | (s1, .handled, snapshot) =>
      let d := driveRoundtable snapshot outcomes now
      (d.1.foldl addMsg s1, d.2)
  | (s1, .failure _, _) => (s1, [])

/-! ## Event-trace model of the single-threaded scheduler

The runtime is a single logical thread: control yields only at the
Promise.race await. A trace interleaves trigger attempts (timer fire, human
input, focused command) with settle events of the in-flight race. inFlight
is the ghost list of started-but-unfinished attempts. -/

structure TraceState where
  server : ServerState
  inFlight : List String
deriving DecidableEq, Repr

/-- An observable scheduling event. -/
inductive Event where
  | trigger (a : String)
  | humanInput (content : String) (now : Nat) (r : ℚ)
  | timerFire (r : ℚ)
  | settle (outcomes : List GenOutcome) (r : ℚ) (now : Nat)
deriving DecidableEq

/-- A trigger runs the entry phase of triggerAIResponse; a started attempt
joins the ghost in-flight list. -/
def stepTrigger (t : TraceState) (a : String) : TraceState :=
  { server := (triggerStart t.server a).1,
    inFlight := if (triggerStart t.server a).2 = .started
      then t.inFlight ++ [a] else t.inFlight }

/-- Human input runs handleHumanInput, whose own trigger may start an
attempt. -/
def stepHuman (t : TraceState) (c : String) (now : Nat) (r : ℚ) : TraceState :=
  { server := (handleHumanInput t.server c now r).state,
    inFlight :=
      match (handleHumanInput t.server c now r).chosen,
            (handleHumanInput t.server c now r).started with
      | some n, true => t.inFlight ++ [n]
      | _, _ => t.inFlight }

/-- A timer fire runs the armed callback, triggering its selected speaker
when one was chosen. -/
def stepTimerFire (t : TraceState) (r : ℚ) : TraceState :=
  match (autoTimerFire t.server r).2 with
  | none => { t with server := (autoTimerFire t.server r).1 }
  | some c => stepTrigger { t with server := (autoTimerFire t.server r).1 } c

/-- A settle resumes the awaiting attempt; it is ignored when none is in
flight, as Promise.race discards late settlements. -/
def stepSettle (t : TraceState) (outs : List GenOutcome) (r : ℚ) (now : Nat) :
    TraceState :=
  match t.inFlight with
  | [] => t
  | a :: rest =>
      { server := finishAttempt t.server a outs r now, inFlight := rest }

/-- One step of the cooperative scheduler. -/
def stepEvent (t : TraceState) (e : Event) : TraceState :=
  match e with
  | .trigger a => stepTrigger t a
  | .humanInput c now r => stepHuman t c now r
  | .timerFire r => stepTimerFire t r
  | .settle outs r now => stepSettle t outs r now

/-- Run a trace of events. -/
def runTrace (t : TraceState) (es : List Event) : TraceState :=
  es.foldl stepEvent t

/-- The single-flight invariant: the ghost in-flight count agrees with the
isGenerating flag, hence never exceeds one. -/
def singleFlight (t : TraceState) : Prop :=
  t.inFlight.length = (if t.server.isGenerating then 1 else 0)

/-! ## Helper lemmas -/

lemma scheduleAuto_isGenerating (s : ServerState) (f : Option Int) (r : ℚ) :
    (scheduleAutoConversation s f r).isGenerating = s.isGenerating := by
  unfold scheduleAutoConversation
  split <;> rfl

lemma scheduleAuto_messages (s : ServerState) (f : Option Int) (r : ℚ) :
    (scheduleAutoConversation s f r).messages = s.messages := by
  unfold scheduleAutoConversation
  split <;> rfl

lemma scheduleAuto_conversationActive (s : ServerState) (f : Option Int) (r : ℚ) :
    (scheduleAutoConversation s f r).conversationActive = s.conversationActive := by
  unfold scheduleAutoConversation
  split <;> rfl

lemma scheduleAuto_agents (s : ServerState) (f : Option Int) (r : ℚ) :
    (scheduleAutoConversation s f r).agents = s.agents := by
  unfold scheduleAutoConversation
  split <;> rfl

lemma isEmpty_false_of_ne_nil {α : Type} (l : List α) (h : l ≠ []) :
    l.isEmpty = false := by
  cases l with
  | nil => exact absurd rfl h
  | cons x xs => rfl

lemma scheduleAuto_timer_armed (s : ServerState) (f : Option Int) (r : ℚ)
    (hact : s.conversationActive = true) (hag : s.agents ≠ []) :
    (scheduleAutoConversation s f r).timer = some (waitTime f r) := by
  unfold scheduleAutoConversation
  simp [hact, isEmpty_false_of_ne_nil s.agents hag]

lemma scheduleAuto_timer_noAgents (s : ServerState) (f : Option Int) (r : ℚ)
    (hag : s.agents = []) :
    (scheduleAutoConversation s f r).timer = none := by
  unfold scheduleAutoConversation
  simp [hag]

lemma pick_eq_some_mem {α : Type} (l : List α) (r : ℚ) (c : α)
    (h : pick l r = some c) : c ∈ l := by
  unfold pick at h
  exact List.get?_mem h

lemma pick_mem {α : Type} (l : List α) (r : ℚ) (h0 : 0 ≤ r) (h1 : r < 1)
    (hne : l ≠ []) : ∃ c, pick l r = some c ∧ c ∈ l := by
  have hlen : 0 < l.length := List.length_pos.mpr hne
  have hx0 : (0 : ℚ) ≤ r * (l.length : ℚ) := by
    apply mul_nonneg h0
    exact_mod_cast Nat.zero_le _
  have hfl0 : 0 ≤ ⌊r * (l.length : ℚ)⌋ := Int.floor_nonneg.mpr hx0
  have hxlt : r * (l.length : ℚ) < (l.length : ℚ) := by
    have : (0 : ℚ) < (l.length : ℚ) := by exact_mod_cast hlen
    nlinarith
  have hflt : ⌊r * (l.length : ℚ)⌋ < (l.length : ℤ) := by
    rw [Int.floor_lt]
    exact_mod_cast hxlt
  have hn : Int.toNat ⌊r * (l.length : ℚ)⌋ < l.length := by
    omega
  refine ⟨l.get ⟨Int.toNat ⌊r * (l.length : ℚ)⌋, hn⟩, ?_, List.get_mem l _ hn⟩
  unfold pick
  exact List.get?_eq_get hn

lemma pushBounded_getLast (cap : Nat) (hcap : 0 < cap)
    (msgs : List ChatMessage) (m : ChatMessage) :
    (pushBounded cap msgs m).getLast? = some m := by
  unfold pushBounded
  split
  · rename_i hgt
    cases msgs with
    | nil =>
        simp only [List.length_append, List.length_nil, List.length_singleton] at hgt
        omega
    | cons x xs =>
        simp only [List.cons_append, List.tail_cons]
        exact List.getLast?_concat xs
  · exact List.getLast?_concat msgs

lemma exists_ne_of_nodup_two (l : List String) (a : String)
    (hnd : l.Nodup) (hlen : 2 ≤ l.length) : ∃ b ∈ l, b ≠ a := by
  match l, hlen with
  | x :: y :: rest, _ =>
    have hxy : x ≠ y := by
      simp only [List.nodup_cons, List.mem_cons] at hnd
      intro h
      exact hnd.1 (Or.inl h)
    by_cases hxa : x = a
    · refine ⟨y, by simp, ?_⟩
      rw [← hxa]
      exact fun h => hxy h.symm
    · exact ⟨x, by simp, hxa⟩

lemma triggerStart_of_isGenerating (s : ServerState) (a : String)
    (h : s.isGenerating = true) : triggerStart s a = (s, .dropped) := by
  unfold triggerStart
  simp [h]

lemma triggerStart_started_flag (s : ServerState) (a : String)
    (h : (triggerStart s a).2 = .started) :
    (triggerStart s a).1.isGenerating = true ∧ s.isGenerating = false := by
  unfold triggerStart at *
  by_cases h1 : s.isGenerating = true
  · simp [h1] at h
  · simp only [Bool.not_eq_true] at h1
    simp only [h1, Bool.false_eq_true, if_false]
    by_cases h2 : a ∉ s.agents
    · simp [h1, h2] at h
    · by_cases h3 : 1 < s.agents.length ∧ lastSender s = some a
      · simp [h1, h2, h3] at h
      · simp [h1, h2, h3, startedState]

lemma triggerStart_not_started_flag (s : ServerState) (a : String)
    (h : (triggerStart s a).2 ≠ .started) :
    (triggerStart s a).1.isGenerating = s.isGenerating := by
  unfold triggerStart at *
  by_cases h1 : s.isGenerating = true
  · simp [h1]
  · simp only [Bool.not_eq_true] at h1
    by_cases h2 : a ∉ s.agents
    · simp [h1, h2, scheduleAuto_isGenerating]
    · by_cases h3 : 1 < s.agents.length ∧ lastSender s = some a
      · simp [h1, h2, h3, scheduleAuto_isGenerating]
      · simp [h1, h2, h3] at h

lemma raceBranch_agents (s : ServerState) (a : String) (o : GenOutcome)
    (now : Nat) : (raceBranch s a o now).agents = s.agents := by
  cases o with
  | success t =>
      show (if jsTrim t = "" then s
        else addMsg s (mkChatMessage a (jsTrim t) now)).agents = s.agents
      split <;> rfl
  | failure m => rfl
  | timeout => rfl

lemma raceBranch_conversationActive (s : ServerState) (a : String)
    (o : GenOutcome) (now : Nat) :
    (raceBranch s a o now).conversationActive = s.conversationActive := by
  cases o with
  | success t =>
      show (if jsTrim t = "" then s
        else addMsg s (mkChatMessage a (jsTrim t) now)).conversationActive
        = s.conversationActive
      split <;> rfl
  | failure m => rfl
  | timeout => rfl

lemma finallyStep_isGenerating (s1 : ServerState) (a : String) (r : ℚ) :
    (finallyStep s1 a r).isGenerating = false := by
  unfold finallyStep
  split
  · rw [scheduleAuto_isGenerating]
  · rfl

lemma finallyStep_timer_armed (s1 : ServerState) (a : String) (r : ℚ)
    (hact : s1.conversationActive = true) (hag : s1.agents ≠ []) :
    (finallyStep s1 a r).timer = some (waitTime none r) := by
  unfold finallyStep
  rw [if_pos hact]
  exact scheduleAuto_timer_armed _ none r hact hag

lemma finishAttempt_isGenerating (s : ServerState) (a : String)
    (outs : List GenOutcome) (r : ℚ) (now : Nat) :
    (finishAttempt s a outs r now).isGenerating = false := by
  unfold finishAttempt
  exact finallyStep_isGenerating _ a r

lemma finishAttempt_timer_armed (s : ServerState) (a : String)
    (outs : List GenOutcome) (r : ℚ) (now : Nat)
    (hact : s.conversationActive = true) (hag : s.agents ≠ []) :
    (finishAttempt s a outs r now).timer = some (waitTime none r) := by
  unfold finishAttempt
  apply finallyStep_timer_armed
  · rw [raceBranch_conversationActive]
    exact hact
  · rw [raceBranch_agents]
    exact hag

lemma triggerStart_messages (s : ServerState) (a : String) :
    (triggerStart s a).1.messages = s.messages := by
  unfold triggerStart
  split
  · rfl
  · split
    · exact scheduleAuto_messages s (some 1000) 0
    · split
      · exact scheduleAuto_messages s (some 100) 0
      · rfl

lemma triggerStart_conversationActive (s : ServerState) (a : String) :
    (triggerStart s a).1.conversationActive = s.conversationActive := by
  unfold triggerStart
  split
  · rfl
  · split
    · exact scheduleAuto_conversationActive s (some 1000) 0
    · split
      · exact scheduleAuto_conversationActive s (some 100) 0
      · rfl

lemma triggerStart_agents (s : ServerState) (a : String) :
    (triggerStart s a).1.agents = s.agents := by
  unfold triggerStart
  split
  · rfl
  · split
    · exact scheduleAuto_agents s (some 1000) 0
    · split
      · exact scheduleAuto_agents s (some 100) 0
      · rfl

lemma triggerStart_cases (s : ServerState) (a : String)
    (hmem : a ∈ s.agents) (hne : lastSender s ≠ some a) :
    (s.isGenerating = true ∧ triggerStart s a = (s, .dropped)) ∨
    (s.isGenerating = false ∧ triggerStart s a = (startedState s a, .started)) := by
  by_cases h : s.isGenerating = true
  · exact Or.inl ⟨h, triggerStart_of_isGenerating s a h⟩
  · have h' : s.isGenerating = false := by simpa using h
    refine Or.inr ⟨h', ?_⟩
    unfold triggerStart
    simp [h', hmem, hne]

/-! ## Wait-time bounds -/

lemma waitTime_lb (r : ℚ) (h0 : 0 ≤ r) : autoMinDelay ≤ waitTime none r := by
  unfold waitTime autoMinDelay autoMaxDelay
  apply Int.le_floor.mpr
  push_cast
  nlinarith

lemma waitTime_ub (r : ℚ) (h1 : r < 1) : waitTime none r < autoMaxDelay := by
  unfold waitTime autoMinDelay autoMaxDelay
  apply Int.floor_lt.mpr
  push_cast
  nlinarith

lemma waitTime_surj (k : Int) (hk1 : autoMinDelay ≤ k) (hk2 : k < autoMaxDelay) :
    ∃ r : ℚ, 0 ≤ r ∧ r < 1 ∧ waitTime none r = k := by
  simp only [autoMinDelay, autoMaxDelay] at hk1 hk2
  refine ⟨((k : ℚ) - 8000) / 12000, ?_, ?_, ?_⟩
  · apply div_nonneg _ (by norm_num)
    have : (8000 : ℚ) ≤ (k : ℚ) := by exact_mod_cast hk1
    linarith
  · rw [div_lt_one (by norm_num : (0:ℚ) < 12000)]
    have : (k : ℚ) < 20000 := by exact_mod_cast hk2
    linarith
  · unfold waitTime autoMinDelay autoMaxDelay
    have hx : ((k : ℚ) - 8000) / 12000 * (((20000 : Int) : ℚ) - ((8000 : Int) : ℚ))
        + ((8000 : Int) : ℚ) = (k : ℚ) := by
      push_cast
      field_simp
      ring
    rw [hx, Int.floor_intCast]

lemma handleHumanInput_messages (s : ServerState) (c : String) (now : Nat)
    (r : ℚ) : (handleHumanInput s c now r).state.messages
      = pushBounded maxHistory s.messages (mkChatMessage "Human" c now) := by
  unfold handleHumanInput
  dsimp only
  split
  · exact scheduleAuto_messages _ none r
  · split
    · exact triggerStart_messages _ _
    · rfl

lemma handleHumanInput_conversationActive (s : ServerState) (c : String)
    (now : Nat) (r : ℚ) :
    (handleHumanInput s c now r).state.conversationActive = true := by
  unfold handleHumanInput
  dsimp only
  split
  · rw [scheduleAuto_conversationActive]
  · split
    · rw [triggerStart_conversationActive]
    · rfl

lemma finallyStep_messages (s1 : ServerState) (a : String) (r : ℚ) :
    (finallyStep s1 a r).messages = s1.messages := by
  unfold finallyStep
  split
  · rw [scheduleAuto_messages]
  · rfl

/-! ## Claim theorems -/

/-- C3: Timeout handling — when the race settles first with the timeout,
exactly one System diagnostic describing the failure is appended through the
bounded store, the auto-conversation timer is re-armed exactly once (with the
default random draw), the scheduler does not stay stuck in the generating
state, and a slow provider call that settles after the timeout changes
nothing (the finish acts only on the first settled outcome). -/
theorem timeoutHandling (s : ServerState) (a : String) (rest : List GenOutcome)
    (r : ℚ) (now : Nat) (hact : s.conversationActive = true)
    (hag : s.agents ≠ []) :
    (finishAttempt s a (GenOutcome.timeout :: rest) r now).messages
      = pushBounded maxHistory s.messages (sysDiag a timeoutErrText now) ∧
    (sysDiag a timeoutErrText now).sender = "System" ∧
    (finishAttempt s a (GenOutcome.timeout :: rest) r now).timer
      = some (waitTime none r) ∧
    (finishAttempt s a (GenOutcome.timeout :: rest) r now).isGenerating
      = false ∧
    finishAttempt s a (GenOutcome.timeout :: rest) r now
      = finishAttempt s a [GenOutcome.timeout] r now := by
  refine ⟨?_, rfl, finishAttempt_timer_armed s a _ r now hact hag,
    finishAttempt_isGenerating s a _ r now, rfl⟩
  unfold finishAttempt
  rw [finallyStep_messages]
  rfl

/-- Witness for C3 at a concrete single-agent active state. -/
theorem timeoutHandling_witness :
    ((⟨["Gemini"], [], true, true, none, ["Gemini"]⟩ :
        ServerState).conversationActive = true ∧
      (⟨["Gemini"], [], true, true, none, ["Gemini"]⟩ :
        ServerState).agents ≠ []) ∧
    ((finishAttempt ⟨["Gemini"], [], true, true, none, ["Gemini"]⟩ "Gemini"
        [GenOutcome.timeout, GenOutcome.success "late"] 0 7).isGenerating
      = false ∧
     finishAttempt ⟨["Gemini"], [], true, true, none, ["Gemini"]⟩ "Gemini"
        [GenOutcome.timeout, GenOutcome.success "late"] 0 7
      = finishAttempt ⟨["Gemini"], [], true, true, none, ["Gemini"]⟩ "Gemini"
        [GenOutcome.timeout] 0 7) :=
  ⟨⟨rfl, by decide⟩,
    ⟨(timeoutHandling ⟨["Gemini"], [], true, true, none, ["Gemini"]⟩ "Gemini"
        [GenOutcome.success "late"] 0 7 rfl (by decide)).2.2.2.1,
     (timeoutHandling ⟨["Gemini"], [], true, true, none, ["Gemini"]⟩ "Gemini"
        [GenOutcome.success "late"] 0 7 rfl (by decide)).2.2.2.2⟩⟩

lemma autoTimerFire_select (s : ServerState) (r : ℚ)
    (hact : s.conversationActive = true) (hgen : s.isGenerating = false)
    (hne : s.agents ≠ []) :
    (autoTimerFire s r).2 =
      pick (if (s.agents.filter
                (fun n => decide (some n ≠ lastSender s))).isEmpty
            then s.agents
            else s.agents.filter (fun n => decide (some n ≠ lastSender s)))
        r := by
  unfold autoTimerFire
  dsimp only
  have hcond : (({ s with timer := none } : ServerState).conversationActive
      && !({ s with timer := none } : ServerState).isGenerating
      && !({ s with timer := none } : ServerState).agents.isEmpty) = true := by
    simp [hact, hgen, isEmpty_false_of_ne_nil s.agents hne]
  rw [if_pos hcond]
  rfl

/-- C4: Normal-mode speaker selection — when the auto-conversation timer
fires with the conversation active, no generation in flight, at least two
(distinct) registered agents, and the most recent sender one of them, the
selected speaker is a registered agent different from that sender; and when
excluding the last sender would leave no candidate (a single registered
agent, no last message, or a last sender outside the registry), the selection
is made from the full registered set. -/
theorem speakerSelection (s : ServerState) (r : ℚ) (a : String)
    (h0 : 0 ≤ r) (h1 : r < 1) (hact : s.conversationActive = true)
    (hgen : s.isGenerating = false) (hne : s.agents ≠ []) :
    (lastSender s = some a → a ∈ s.agents → s.agents.Nodup →
        2 ≤ s.agents.length →
        ∃ c, (autoTimerFire s r).2 = some c ∧ c ∈ s.agents ∧ c ≠ a) ∧
    ((s.agents.length = 1 ∨ lastSender s = none ∨
        (∀ b, lastSender s = some b → b ∉ s.agents)) →
        (autoTimerFire s r).2 = pick s.agents r ∧
        ∃ c, (autoTimerFire s r).2 = some c ∧ c ∈ s.agents) := by
  have hsel := autoTimerFire_select s r hact hgen hne
  constructor
  · intro hlast hmem hnd hlen
    obtain ⟨b, hbmem, hba⟩ := exists_ne_of_nodup_two s.agents a hnd hlen
    have hbf : b ∈ s.agents.filter (fun n => decide (some n ≠ lastSender s)) := by
      rw [List.mem_filter]
      exact ⟨hbmem, by simp [hlast, hba]⟩
    have hfne : s.agents.filter (fun n => decide (some n ≠ lastSender s)) ≠ [] := by
      intro h0'
      rw [h0'] at hbf
      exact absurd hbf (List.not_mem_nil b)
    rw [isEmpty_false_of_ne_nil _ hfne] at hsel
    simp only [Bool.false_eq_true, if_false] at hsel
    obtain ⟨c, hc, hcmem⟩ := pick_mem _ r h0 h1 hfne
    rw [List.mem_filter] at hcmem
    refine ⟨c, by rw [hsel]; exact hc, hcmem.1, ?_⟩
    have hcd := hcmem.2
    rw [hlast] at hcd
    simpa using hcd
  · intro hcase
    have hfull : (if (s.agents.filter
          (fun n => decide (some n ≠ lastSender s))).isEmpty
        then s.agents
        else s.agents.filter (fun n => decide (some n ≠ lastSender s)))
        = s.agents := by
      rcases hcase with hlen1 | hnone | hnotin
      · obtain ⟨x, hx⟩ := List.length_eq_one.mp hlen1
        rw [hx]
        by_cases hdx : some x ≠ lastSender s
        · simp [hdx]
        · simp [hdx]
      · have hfs : s.agents.filter (fun n => decide (some n ≠ lastSender s))
            = s.agents :=
          List.filter_eq_self.mpr (fun n _ => by simp [hnone])
        rw [hfs, isEmpty_false_of_ne_nil _ hne]
        simp
      · cases hl : lastSender s with
        | none =>
            have hfs : s.agents.filter
                (fun n => decide (some n ≠ (none : Option String)))
                = s.agents :=
              List.filter_eq_self.mpr (fun n _ => by simp)
            rw [hfs, isEmpty_false_of_ne_nil _ hne]
            simp
        | some b =>
            have hfs : s.agents.filter (fun n => decide (some n ≠ some b))
                = s.agents := by
              apply List.filter_eq_self.mpr
              intro n hn
              simp only [decide_eq_true_eq, ne_eq, Option.some_inj]
              intro hnb
              rw [hnb] at hn
              exact hnotin b hl hn
            rw [hfs, isEmpty_false_of_ne_nil _ hne]
            simp
    rw [hfull] at hsel
    obtain ⟨c, hc, hcm⟩ := pick_mem s.agents r h0 h1 hne
    exact ⟨hsel, c, by rw [hsel]; exact hc, hcm⟩

/-- Witness for C4: two distinct agents, the last message sent by the first;
the selected speaker is the other one. -/
theorem speakerSelection_witness :
    ((0 : ℚ) ≤ 0 ∧ (0 : ℚ) < 1 ∧
     (⟨["Gemini", "Llama"], [mkChatMessage "Gemini" "hi" 0], true, false, none,
        []⟩ : ServerState).conversationActive = true ∧
     (⟨["Gemini", "Llama"], [mkChatMessage "Gemini" "hi" 0], true, false, none,
        []⟩ : ServerState).isGenerating = false ∧
     (⟨["Gemini", "Llama"], [mkChatMessage "Gemini" "hi" 0], true, false, none,
        []⟩ : ServerState).agents ≠ [] ∧
     lastSender ⟨["Gemini", "Llama"], [mkChatMessage "Gemini" "hi" 0], true,
        false, none, []⟩ = some "Gemini") ∧
    (∃ c, (autoTimerFire ⟨["Gemini", "Llama"],
        [mkChatMessage "Gemini" "hi" 0], true, false, none, []⟩ 0).2 = some c ∧
      c ∈ (⟨["Gemini", "Llama"], [mkChatMessage "Gemini" "hi" 0], true, false,
        none, []⟩ : ServerState).agents ∧ c ≠ "Gemini") :=
  ⟨⟨le_refl 0, by norm_num, rfl, rfl, by decide, by decide⟩,
    (speakerSelection ⟨["Gemini", "Llama"], [mkChatMessage "Gemini" "hi" 0],
        true, false, none, []⟩ 0 "Gemini" (le_refl 0) (by norm_num) rfl rfl
        (by decide)).1 (by decide) (by decide) (by decide) (by decide)⟩

lemma handleHumanInput_eq_empty (s : ServerState) (c : String) (now : Nat)
    (r : ℚ) (h : s.agents = []) :
    handleHumanInput s c now r =
      ⟨scheduleAutoConversation
          { addMsg s (mkChatMessage "Human" c now) with
            conversationActive := true, timer := none } none r,
        none, false⟩ := by
  unfold handleHumanInput
  dsimp only
  rw [if_pos]
  show s.agents.isEmpty = true
  rw [h]
  rfl

lemma handleHumanInput_eq_some (s : ServerState) (c : String) (now : Nat)
    (r : ℚ) (n : String) (hne : s.agents ≠ [])
    (hp : pick s.agents r = some n) :
    handleHumanInput s c now r =
      ⟨(triggerStart { addMsg s (mkChatMessage "Human" c now) with
            conversationActive := true, timer := none } n).1,
        some n,
        decide ((triggerStart { addMsg s (mkChatMessage "Human" c now) with
            conversationActive := true, timer := none } n).2
          = StartResult.started)⟩ := by
  unfold handleHumanInput
  dsimp only
  rw [if_neg]
  · have hp' : pick ({ addMsg s (mkChatMessage "Human" c now) with
        conversationActive := true, timer := none } : ServerState).agents r
        = some n := hp
    rw [hp']
  · show ¬ s.agents.isEmpty = true
    rw [isEmpty_false_of_ne_nil _ hne]
    simp

lemma lastSender_after_human (s : ServerState) (c : String) (now : Nat) :
    lastSender { addMsg s (mkChatMessage "Human" c now) with
        conversationActive := true, timer := none } = some "Human" := by
  unfold lastSender
  show (pushBounded maxHistory s.messages
      (mkChatMessage "Human" c now)).getLast?.map ChatMessage.sender
    = some "Human"
  rw [pushBounded_getLast maxHistory (by norm_num [maxHistory]) s.messages]
  rfl

/-- C5: Human-input handling — every human message arrival (a) appends the
message through the bounded store, (b) forces conversationActive to true,
(c) leaves the auto-conversation timer disarmed at return, (d) with a
non-empty registry immediately picks a uniformly random registered agent from
the full set and attempts its turn (starting it when no generation holds the
lock); and when the attempt cannot start — empty registry, or the lock held —
the handler completes without error, falling back to the re-arm policy
(scheduleAutoConversation on the empty registry; the in-flight attempt's
finally re-arm when the lock was held). -/
theorem humanInputHandling (s : ServerState) (c : String) (now : Nat) (r : ℚ)
    (h0 : 0 ≤ r) (h1 : r < 1) (hH : "Human" ∉ s.agents) :
    (handleHumanInput s c now r).state.messages
      = pushBounded maxHistory s.messages (mkChatMessage "Human" c now) ∧
    (handleHumanInput s c now r).state.conversationActive = true ∧
    (handleHumanInput s c now r).state.timer = none ∧
    (s.agents ≠ [] →
      (handleHumanInput s c now r).chosen = pick s.agents r ∧
      ∃ n, pick s.agents r = some n ∧ n ∈ s.agents) ∧
    (s.agents ≠ [] → s.isGenerating = false →
      (handleHumanInput s c now r).started = true ∧
      (handleHumanInput s c now r).state.isGenerating = true) ∧
    (s.agents = [] →
      (handleHumanInput s c now r).state
        = scheduleAutoConversation
            { addMsg s (mkChatMessage "Human" c now) with
              conversationActive := true, timer := none } none r) ∧
    (s.agents ≠ [] → s.isGenerating = true →
      (handleHumanInput s c now r).started = false ∧
      (handleHumanInput s c now r).state.isGenerating = true ∧
      (∀ (a' : String) (outs : List GenOutcome) (r' : ℚ) (now' : Nat),
        (finishAttempt (handleHumanInput s c now r).state a' outs r' now').timer
          = some (waitTime none r'))) := by
  refine ⟨handleHumanInput_messages s c now r,
    handleHumanInput_conversationActive s c now r, ?_, ?_, ?_, ?_, ?_⟩
  all_goals by_cases hag : s.agents = []
  case pos =>
    rw [handleHumanInput_eq_empty s c now r hag]
    exact scheduleAuto_timer_noAgents _ none r hag
  case neg =>
    obtain ⟨n, hp, hnmem⟩ := pick_mem s.agents r h0 h1 hag
    rw [handleHumanInput_eq_some s c now r n hag hp]
    rcases triggerStart_cases
        { addMsg s (mkChatMessage "Human" c now) with
          conversationActive := true, timer := none } n hnmem
        (by rw [lastSender_after_human]
            intro hcon
            apply hH
            rw [Option.some_inj] at hcon
            rw [← hcon] at hnmem
            exact hnmem) with h | h
    · rw [h.2]
    · rw [h.2]
      rfl
  case pos =>
    intro hne
    exact absurd hag hne
  case neg =>
    intro _
    obtain ⟨n, hp, hnmem⟩ := pick_mem s.agents r h0 h1 hag
    rw [handleHumanInput_eq_some s c now r n hag hp]
    exact ⟨by rw [hp], n, hp, hnmem⟩
  case pos =>
    intro hne
    exact absurd hag hne
  case neg =>
    intro _ hgen
    obtain ⟨n, hp, hnmem⟩ := pick_mem s.agents r h0 h1 hag
    rw [handleHumanInput_eq_some s c now r n hag hp]
    rcases triggerStart_cases
        { addMsg s (mkChatMessage "Human" c now) with
          conversationActive := true, timer := none } n hnmem
        (by rw [lastSender_after_human]
            intro hcon
            apply hH
            rw [Option.some_inj] at hcon
            rw [← hcon] at hnmem
            exact hnmem) with h | h
    · exact absurd h.1 (by simp; exact hgen)
    · rw [h.2]
      exact ⟨by simp, rfl⟩
  case pos =>
    intro _
    rw [handleHumanInput_eq_empty s c now r hag]
  case neg =>
    intro hne
    exact absurd hag (by simpa using hne)
  case pos =>
    intro hne
    exact absurd hag hne
  case neg =>
    intro _ hgen
    obtain ⟨n, hp, hnmem⟩ := pick_mem s.agents r h0 h1 hag
    rw [handleHumanInput_eq_some s c now r n hag hp]
    rcases triggerStart_cases
        { addMsg s (mkChatMessage "Human" c now) with
          conversationActive := true, timer := none } n hnmem
        (by rw [lastSender_after_human]
            intro hcon
            apply hH
            rw [Option.some_inj] at hcon
            rw [← hcon] at hnmem
            exact hnmem) with h | h
    · rw [h.2]
      refine ⟨by simp, by exact hgen, ?_⟩
      intro a' outs r' now'
      apply finishAttempt_timer_armed
      · rfl
      · show s.agents ≠ []
        exact hag
    · exact absurd h.1 (by simp; exact hgen)

/-- Witness for C5: a fresh single-agent idle server receiving "hello";
the immediate attempt starts. -/
theorem humanInputHandling_witness :
    ((0 : ℚ) ≤ 0 ∧ (0 : ℚ) < 1 ∧
      "Human" ∉ (⟨["Gemini"], [], false, false, none, []⟩ : ServerState).agents) ∧
    ((handleHumanInput ⟨["Gemini"], [], false, false, none, []⟩ "hello" 3 0).started
        = true ∧
      (handleHumanInput ⟨["Gemini"], [], false, false, none, []⟩ "hello" 3
          0).state.isGenerating = true) :=
  ⟨⟨le_refl 0, by norm_num, by decide⟩,
    (humanInputHandling ⟨["Gemini"], [], false, false, none, []⟩ "hello" 3 0
      (le_refl 0) (by norm_num) (by decide)).2.2.2.2.1 (by decide) rfl⟩

lemma handleHumanInput_started_flag (s : ServerState) (c : String) (now : Nat)
    (r : ℚ) :
    ((handleHumanInput s c now r).started = true →
      (handleHumanInput s c now r).state.isGenerating = true ∧
      s.isGenerating = false) ∧
    ((handleHumanInput s c now r).started = false →
      (handleHumanInput s c now r).state.isGenerating = s.isGenerating) := by
  unfold handleHumanInput
  dsimp only
  split
  · constructor
    · intro h
      exact absurd h (by simp)
    · intro _
      rw [scheduleAuto_isGenerating]
      exact rfl
  · split
    · rename_i n hp
      constructor
      · intro h
        have hs := of_decide_eq_true h
        exact triggerStart_started_flag _ n hs
      · intro h
        have hs := of_decide_eq_false h
        exact triggerStart_not_started_flag _ n hs
    · constructor
      · intro h
        exact absurd h (by simp)
      · intro _
        rfl

lemma handleHumanInput_chosen_none_started (s : ServerState) (c : String)
    (now : Nat) (r : ℚ) :
    (handleHumanInput s c now r).chosen = none →
    (handleHumanInput s c now r).started = false := by
  unfold handleHumanInput
  dsimp only
  split
  · intro _
    rfl
  · split
    · intro hc
      simp at hc
    · intro _
      rfl

lemma autoTimerFire_isGenerating (s : ServerState) (r : ℚ) :
    (autoTimerFire s r).1.isGenerating = s.isGenerating := by
  unfold autoTimerFire
  dsimp only
  split
  · rfl
  · split
    · rw [scheduleAuto_isGenerating]
    · rfl

lemma stepTrigger_singleFlight (t : TraceState) (a : String)
    (h : singleFlight t) : singleFlight (stepTrigger t a) := by
  unfold singleFlight at *
  unfold stepTrigger
  dsimp only
  by_cases hs : (triggerStart t.server a).2 = StartResult.started
  · obtain ⟨h1, h2⟩ := triggerStart_started_flag t.server a hs
    rw [if_pos hs, h1]
    rw [h2] at h
    simp only [Bool.false_eq_true, if_false] at h
    simp [h]
  · rw [if_neg hs, triggerStart_not_started_flag t.server a hs]
    exact h

lemma stepHuman_singleFlight (t : TraceState) (c : String) (now : Nat) (r : ℚ)
    (h : singleFlight t) : singleFlight (stepHuman t c now r) := by
  unfold singleFlight at *
  unfold stepHuman
  dsimp only
  rcases hch : (handleHumanInput t.server c now r).chosen with _ | n
  · have hst := handleHumanInput_chosen_none_started t.server c now r hch
    rw [hst]
    dsimp only
    rw [(handleHumanInput_started_flag t.server c now r).2 hst]
    exact h
  · rcases hst : (handleHumanInput t.server c now r).started with _ | _
    · dsimp only
      rw [(handleHumanInput_started_flag t.server c now r).2 hst]
      exact h
    · dsimp only
      obtain ⟨h1, h2⟩ := (handleHumanInput_started_flag t.server c now r).1 hst
      rw [h1]
      rw [h2] at h
      simp only [Bool.false_eq_true, if_false] at h
      simp [h]

lemma stepTimerFire_singleFlight (t : TraceState) (r : ℚ)
    (h : singleFlight t) : singleFlight (stepTimerFire t r) := by
  unfold stepTimerFire
  rcases hp : (autoTimerFire t.server r).2 with _ | c
  · dsimp only
    unfold singleFlight at h ⊢
    dsimp only
    rw [autoTimerFire_isGenerating]
    exact h
  · dsimp only
    apply stepTrigger_singleFlight
    unfold singleFlight at h ⊢
    dsimp only
    rw [autoTimerFire_isGenerating]
    exact h

lemma stepSettle_singleFlight (t : TraceState) (outs : List GenOutcome)
    (r : ℚ) (now : Nat) (h : singleFlight t) :
    singleFlight (stepSettle t outs r now) := by
  unfold singleFlight at *
  unfold stepSettle
  cases hIF : t.inFlight with
  | nil =>
      dsimp only
      rw [hIF]
      rw [hIF] at h
      exact h
  | cons a rest =>
      dsimp only
      rw [finishAttempt_isGenerating]
      rw [hIF] at h
      simp only [List.length_cons] at h
      by_cases hg : t.server.isGenerating = true
      · rw [hg] at h
        simp only [if_true] at h
        simp only [Bool.false_eq_true, if_false]
        omega
      · have hg' : t.server.isGenerating = false := by simpa using hg
        rw [hg'] at h
        simp at h

lemma stepEvent_singleFlight (t : TraceState) (e : Event)
    (h : singleFlight t) : singleFlight (stepEvent t e) := by
  cases e with
  | trigger a => exact stepTrigger_singleFlight t a h
  | humanInput c now r => exact stepHuman_singleFlight t c now r h
  | timerFire r => exact stepTimerFire_singleFlight t r h
  | settle outs r now => exact stepSettle_singleFlight t outs r now h

lemma runTrace_singleFlight (t : TraceState) (es : List Event)
    (h : singleFlight t) : singleFlight (runTrace t es) := by
  induction es generalizing t with
  | nil => exact h
  | cons e rest ih => exact ih _ (stepEvent_singleFlight t e h)

/-- C1: Single-flight mutual exclusion — starting from a state with no
generation in flight, along every event trace (trigger attempts from timer
fire, human input or focused invocation, interleaved with race settlements)
the number of in-flight generation attempts after every prefix is at most
one and always agrees with the isGenerating flag (so the flag is true for
the whole attempt including the timeout race); a trigger arriving while the
flag is true is dropped with no state change and no queueing; and the
finally step of every attempt clears the flag on every outcome. -/
theorem singleFlightLock (s₀ : ServerState) (h₀ : s₀.isGenerating = false)
    (es : List Event) :
    (∀ n : Nat, (runTrace ⟨s₀, []⟩ (es.take n)).inFlight.length ≤ 1) ∧
    singleFlight (runTrace ⟨s₀, []⟩ es) ∧
    (∀ (t : TraceState) (a : String), t.server.isGenerating = true →
        stepEvent t (Event.trigger a) = t) ∧
    (∀ (s : ServerState) (a : String) (outs : List GenOutcome) (r : ℚ)
        (now : Nat), (finishAttempt s a outs r now).isGenerating = false) := by
  have hinv : singleFlight ⟨s₀, []⟩ := by
    unfold singleFlight
    simp [h₀]
  refine ⟨?_, runTrace_singleFlight _ es hinv, ?_, finishAttempt_isGenerating⟩
  · intro n
    have hx := runTrace_singleFlight ⟨s₀, []⟩ (es.take n) hinv
    unfold singleFlight at hx
    rw [hx]
    split <;> omega
  · intro t a hgen
    show stepTrigger t a = t
    unfold stepTrigger
    rw [triggerStart_of_isGenerating t.server a hgen]
    simp

/-- Witness for C1: one attempt started and settled on a single-agent active
server. -/
theorem singleFlightLock_witness :
    (⟨["Gemini"], [], true, false, none, []⟩ : ServerState).isGenerating
        = false ∧
    singleFlight (runTrace ⟨⟨["Gemini"], [], true, false, none, []⟩, []⟩
      [Event.trigger "Gemini", Event.settle [GenOutcome.success "hi"] 0 1]) :=
  ⟨rfl, (singleFlightLock ⟨["Gemini"], [], true, false, none, []⟩ rfl
    [Event.trigger "Gemini", Event.settle [GenOutcome.success "hi"] 0 1]).2.1⟩

lemma foldl_addMsg_messages (msgs : List ChatMessage) (s : ServerState) :
    (msgs.foldl addMsg s).messages
      = msgs.foldl (pushBounded maxHistory) s.messages := by
  induction msgs generalizing s with
  | nil => rfl
  | cons m rest ih =>
      rw [List.foldl_cons, List.foldl_cons]
      exact ih (addMsg s m)

/-- C6: Roundtable sequence — invoking the roundtable command with
registered agents [A, B, C] and a non-empty topic drives, in order, the
System announcement, a Human-sender topic message, exactly one turn attempt
per agent in registration-snapshot order (whatever each attempt's outcome),
and one System completion message, every message flowing through the bounded
store in that order. -/
theorem roundtableSequence (s : ServerState) (A B C : String) (args : String)
    (oA oB oC : GenOutcome) (now : Nat)
    (hag : s.agents = [A, B, C]) (ht : jsTrim args ≠ "") :
    (runRoundtable s args [oA, oB, oC] now).2 = [A, B, C] ∧
    (runRoundtable s args [oA, oB, oC] now).1.messages =
      List.foldl (pushBounded maxHistory) s.messages
        ([mkChatMessage "System"
            ("🔵 ROUNDTABLE MODE: \"" ++ jsTrim args ++ "\"") now,
          mkChatMessage "System" "Each agent will respond in sequence..." now,
          mkChatMessage "Human" ("ROUNDTABLE TOPIC: " ++ jsTrim args) now]
          ++ (roundtableTurnMsg A oA now).toList
          ++ (roundtableTurnMsg B oB now).toList
          ++ (roundtableTurnMsg C oC now).toList
          ++ [mkChatMessage "System" roundtableCompleteText now]) ∧
    (mkChatMessage "System"
        ("🔵 ROUNDTABLE MODE: \"" ++ jsTrim args ++ "\"") now).sender
      = "System" ∧
    (mkChatMessage "Human" ("ROUNDTABLE TOPIC: " ++ jsTrim args) now).sender
      = "Human" ∧
    (mkChatMessage "System" roundtableCompleteText now).sender = "System" := by
  have hcmd : handleRoundtableCommand s args now =
      (addMsg (addSystemMessage (addSystemMessage s
          ("🔵 ROUNDTABLE MODE: \"" ++ jsTrim args ++ "\"") now)
          "Each agent will respond in sequence..." now)
        (mkChatMessage "Human" ("ROUNDTABLE TOPIC: " ++ jsTrim args) now),
       CommandResult.handled, [A, B, C]) := by
    unfold handleRoundtableCommand
    dsimp only
    rw [if_neg ht, hag]
  have hdrive : driveRoundtable [A, B, C] [oA, oB, oC] now =
      ((roundtableTurnMsg A oA now).toList
        ++ ((roundtableTurnMsg B oB now).toList
          ++ ((roundtableTurnMsg C oC now).toList
            ++ [mkChatMessage "System" roundtableCompleteText now])),
       [A, B, C]) := rfl
  have hrun : runRoundtable s args [oA, oB, oC] now =
      (((roundtableTurnMsg A oA now).toList
        ++ ((roundtableTurnMsg B oB now).toList
          ++ ((roundtableTurnMsg C oC now).toList
            ++ [mkChatMessage "System" roundtableCompleteText now]))).foldl
        addMsg
        (addMsg (addSystemMessage (addSystemMessage s
            ("🔵 ROUNDTABLE MODE: \"" ++ jsTrim args ++ "\"") now)
            "Each agent will respond in sequence..." now)
          (mkChatMessage "Human" ("ROUNDTABLE TOPIC: " ++ jsTrim args) now)),
       [A, B, C]) := by
    unfold runRoundtable
    rw [hcmd]
    dsimp only
    rw [hdrive]
  refine ⟨by rw [hrun], ?_, rfl, rfl, rfl⟩
  rw [hrun]
  dsimp only
  rw [foldl_addMsg_messages]
  simp only [List.foldl_append, List.foldl_cons, List.foldl_nil]
  rfl

/-- Witness for C6: three agents, topic "T", first agent succeeds, second
times out, third returns whitespace only. -/
theorem roundtableSequence_witness :
    ((⟨["Gemini", "Llama", "Qwen"], [], true, false, none, []⟩ :
        ServerState).agents = ["Gemini", "Llama", "Qwen"] ∧
      jsTrim "T" ≠ "") ∧
    (runRoundtable ⟨["Gemini", "Llama", "Qwen"], [], true, false, none, []⟩
        "T" [GenOutcome.success "fine", GenOutcome.timeout,
             GenOutcome.success "  "] 5).2
      = ["Gemini", "Llama", "Qwen"] :=
  ⟨⟨rfl, by decide⟩,
    (roundtableSequence ⟨["Gemini", "Llama", "Qwen"], [], true, false, none, []⟩
      "Gemini" "Llama" "Qwen" "T" (GenOutcome.success "fine") GenOutcome.timeout
      (GenOutcome.success "  ") 5 rfl (by decide)).1⟩

/-- C7: Malformed-append atomicity — a value that is not a ChatMessage is
rejected by addMessage with the InvalidMessage signal, and the server state
(in particular the message store) is completely unchanged: no element added
or evicted, no newMessage broadcast, no save-timer reset. -/
theorem malformedAppendAtomic (s : ServerState) :
    addMessage s JSVal.notMsg = (s, [Effect.invalidMessage]) ∧
    (addMessage s JSVal.notMsg).1.messages = s.messages ∧
    (∀ rec : MsgRecord, Effect.broadcast rec ∉ (addMessage s JSVal.notMsg).2) ∧
    Effect.saveTimerReset ∉ (addMessage s JSVal.notMsg).2 := by
  refine ⟨rfl, rfl, ?_, ?_⟩
  · intro rec
    simp [addMessage]
  · simp [addMessage]

/-- C9: Snapshot round-trip — serializing the whole store to the snapshot
record array (in timeline order, via toJSON) and reconstructing messages
through the ChatMessage constructor yields an identical ordered sequence of
(sender, content, timestamp) triples. -/
theorem snapshotRoundTrip (msgs : List ChatMessage) :
    (loadConversationRecords (saveConversationRecords msgs)).map msgTriple
      = msgs.map msgTriple ∧
    saveConversationRecords msgs = msgs.map ChatMessage.toJSON := by
  refine ⟨?_, rfl⟩
  induction msgs with
  | nil => rfl
  | cons m rest ih =>
      have hm : msgTriple (loadMessageRecord (ChatMessage.toJSON m))
          = msgTriple m := rfl
      simp only [saveConversationRecords, loadConversationRecords,
        List.map_cons] at *
      rw [hm, ih]

/-- C2: Bounded FIFO message store — the default capacity is 150; for every
append sequence the store length stays at most the capacity after each
append; the store after any sequence is exactly the capacity-suffix of the
appended sequence in insertion order; and a single append to an in-bounds
store either appends at the tail or evicts exactly the oldest element (the
head) while appending at the tail, never reordering the rest. -/
theorem boundedFifoStore (cap : Nat) (hcap : 0 < cap) :
    maxHistory = 150 ∧
    (∀ (ms : List ChatMessage) (n : Nat),
        (List.foldl (pushBounded cap) [] (ms.take n)).length ≤ cap) ∧
    (∀ ms : List ChatMessage,
        List.foldl (pushBounded cap) [] ms = ms.drop (ms.length - cap)) ∧
    (∀ (st : List ChatMessage) (m : ChatMessage), st.length ≤ cap →
        pushBounded cap st m =
          if st.length < cap then st ++ [m] else st.tail ++ [m]) := by
  refine ⟨rfl, ?_, ?_, ?_⟩
  · intro ms n
    rw [foldl_pushBounded_drop cap hcap (ms.take n) [] (by simp)]
    simp only [List.nil_append, List.length_nil, Nat.zero_add, List.length_drop]
    omega
  · intro ms
    rw [foldl_pushBounded_drop cap hcap ms [] (by simp)]
    simp
  · intro st m hle
    by_cases hlt : st.length < cap
    · rw [if_pos hlt, pushBounded_of_le cap hcap st m hle]
      have h0 : st.length + 1 - cap = 0 := by omega
      rw [h0, List.drop_zero]
    · rw [if_neg hlt, pushBounded_of_le cap hcap st m hle]
      have heq : st.length = cap := by omega
      have h1 : st.length + 1 - cap = 1 := by omega
      rw [h1, List.drop_one]
      cases st with
      | nil => simp at heq; omega
      | cons x xs => rfl

/-- Witness for C2 at capacity 2 and a three-element append sequence. -/
theorem boundedFifoStore_witness :
    0 < 2 ∧ List.foldl (pushBounded 2) []
        [mkChatMessage "Human" "a" 0, mkChatMessage "Human" "b" 1,
         mkChatMessage "Human" "c" 2]
      = [mkChatMessage "Human" "a" 0, mkChatMessage "Human" "b" 1,
         mkChatMessage "Human" "c" 2].drop
          ([mkChatMessage "Human" "a" 0, mkChatMessage "Human" "b" 1,
            mkChatMessage "Human" "c" 2].length - 2) :=
  ⟨by decide, (boundedFifoStore 2 (by decide)).2.2.1 _⟩

/-- C8 counterexample: the claim says the wait is drawn from the closed
interval up to autoMaxDelay = 20000, but no draw of Math.random() in [0, 1)
can ever produce 20000 — the distribution is over the half-open interval. -/
theorem delayPolicyClosedIntervalCounterexample :
    ¬ ∃ r : ℚ, 0 ≤ r ∧ r < 1 ∧ waitTime none r = autoMaxDelay := by
  rintro ⟨r, h0, h1, heq⟩
  have := waitTime_ub r h1
  omega

/-- C8 (amended): Delay policy — a forced delay is used exactly as given and
only for that one arming (a subsequent unforced arming draws afresh); an
unforced arming draws uniformly from the half-open interval
[autoMinDelay, autoMaxDelay): every draw lands in [8000, 19999] and every
integer in that range is attainable; the forced values are 1000 after an
invalid-agent error, 100 after a same-speaker skip, and 2000 when a
generation was already in flight at timer fire. -/
theorem delayPolicy :
    (∀ (d : Int) (r : ℚ), waitTime (some d) r = d) ∧
    (∀ r : ℚ, 0 ≤ r → r < 1 →
        autoMinDelay ≤ waitTime none r ∧ waitTime none r < autoMaxDelay) ∧
    (∀ k : Int, autoMinDelay ≤ k → k < autoMaxDelay →
        ∃ r : ℚ, 0 ≤ r ∧ r < 1 ∧ waitTime none r = k) ∧
    (∀ (s : ServerState) (d : Int) (r r' : ℚ),
        s.conversationActive = true → s.agents ≠ [] →
        (scheduleAutoConversation s (some d) r).timer = some d ∧
        (scheduleAutoConversation (scheduleAutoConversation s (some d) r)
            none r').timer = some (waitTime none r')) ∧
    (∀ (s : ServerState) (a : String), s.isGenerating = false → a ∉ s.agents →
        triggerStart s a
          = (scheduleAutoConversation s (some 1000) 0, .invalidAgent)) ∧
    (∀ (s : ServerState) (a : String), s.isGenerating = false → a ∈ s.agents →
        1 < s.agents.length → lastSender s = some a →
        triggerStart s a
          = (scheduleAutoConversation s (some 100) 0, .sameSpeakerSkip)) ∧
    (∀ (s : ServerState) (r : ℚ), s.conversationActive = true →
        s.isGenerating = true →
        autoTimerFire s r
          = (scheduleAutoConversation { s with timer := none } (some 2000) r,
             none)) := by
  refine ⟨fun d r => rfl, ?_, waitTime_surj, ?_, ?_, ?_, ?_⟩
  · intro r h0 h1
    exact ⟨waitTime_lb r h0, waitTime_ub r h1⟩
  · intro s d r r' hact hag
    constructor
    · exact scheduleAuto_timer_armed s (some d) r hact hag
    · apply scheduleAuto_timer_armed
      · rw [scheduleAuto_conversationActive]
        exact hact
      · rw [scheduleAuto_agents]
        exact hag
  · intro s a hgen hnot
    unfold triggerStart
    simp [hgen, hnot]
  · intro s a hgen hmem hlen hlast
    unfold triggerStart
    simp [hgen, hmem, hlen, hlast]
  · intro s r hact hgen
    unfold autoTimerFire
    simp [hact, hgen]

/-- Witness for C8 instantiating the unforced-draw bounds at r = 1/2 and the
in-flight forced delay at a concrete busy state. -/
theorem delayPolicy_witness :
    ((0 : ℚ) ≤ 1 / 2 ∧ (1 / 2 : ℚ) < 1) ∧
    (autoMinDelay ≤ waitTime none (1 / 2)
      ∧ waitTime none (1 / 2) < autoMaxDelay) :=
  ⟨⟨by norm_num, by norm_num⟩,
    delayPolicy.2.1 (1 / 2) (by norm_num) (by norm_num)⟩

/-- C10: humanMessage socket channel guard — a human turn is processed only
for a string payload whose trimmed content is non-empty and whose raw length
is under 2000 characters; any other payload is dropped with the server state
(store, conversationActive flag, timers) completely unchanged. -/
theorem socketPayloadGuard :
    (∀ (s : ServerState) (p : SocketPayload) (now : Nat) (r : ℚ),
        validHumanPayload p = false → onHumanMessage s p now r = s) ∧
    (∀ (s : ServerState) (c : String) (now : Nat) (r : ℚ),
        validHumanPayload (.str c) = true →
        onHumanMessage s (.str c) now r = (handleHumanInput s (jsTrim c) now r).state
          ∧ (onHumanMessage s (.str c) now r).messages
            = pushBounded maxHistory s.messages
                (mkChatMessage "Human" (jsTrim c) now)) := by
  constructor
  · intro s p now r hv
    cases p with
    | str c =>
        dsimp only [validHumanPayload] at hv
        dsimp only [onHumanMessage]
        rw [hv]
        simp
    | nonString => rfl
  · intro s c now r hv
    dsimp only [validHumanPayload] at hv
    have h : onHumanMessage s (.str c) now r
        = (handleHumanInput s (jsTrim c) now r).state := by
      dsimp only [onHumanMessage]
      rw [hv]
      simp
    refine ⟨h, ?_⟩
    rw [h, handleHumanInput_messages]

/-- Witness for C10: the invalid branch at a whitespace-only payload on the
empty fresh server state. -/
theorem socketPayloadGuard_witness :
    validHumanPayload (SocketPayload.str "   ") = false ∧
    onHumanMessage ⟨[], [], false, false, none, []⟩ (SocketPayload.str "   ") 0 0
      = ⟨[], [], false, false, none, []⟩ :=
  ⟨by decide, socketPayloadGuard.1 ⟨[], [], false, false, none, []⟩
    (SocketPayload.str "   ") 0 0 (by decide)⟩

end Nexus
